import Mathlib

/-!
Shallow embedding of the folder-tree / document-lifecycle core of the
dms-backend repository (`src/services/FolderService.ts`, the document
service, and the Folder model).  Mongo documents become Lean structures,
the collections become lists inside a `DB` state, and each service
method becomes a function `DB → ... → Except ApiError ...` that returns
the updated state.  Paths are `String`s; `$regex` prefix filters built
from an escaped path are modelled as literal prefix tests; the one
*unescaped* regex (`checkUniqueName`'s `^name$` with flag `i`) is
modelled by `regexIMatch`, a case-insensitive matcher in which `'.'` is
a wildcard and every other character matches literally (faithful to the
JavaScript regex for patterns whose only metacharacter is a dot).
Depths are `Int` (Mongo numbers; the move cascade adds a possibly
negative delta).  Timestamps are `Nat` values passed in as `now`.
-/

deriving instance DecidableEq for Except

namespace DMS

/-- Test of JS `s.startsWith(p)`; also models a Mongo `$regex` anchored prefix
filter whose pattern is a regex-escaped string followed by the literal
suffix, as in `^escapedOldPath/`. -/
def strStartsWith (p s : String) : Bool := p.data.isPrefixOf s.data

/-- Mongo `$substr: [s, n, -1]` (the suffix of `s` from position `n`). -/
def strDropLen (n : Nat) (s : String) : String := String.mk (s.data.drop n)

/-- Length as in JS `s.length` (all repository paths are ASCII, so UTF-16 units = chars). -/
def strLen (s : String) : Nat := s.data.length

/-- Value of JS `oldPath.substring(0, oldPath.lastIndexOf('/'))`: everything before
the last slash, `""` when the string has no slash. -/
def parentPathOf (s : String) : String :=
  String.mk (((s.data.reverse.dropWhile (fun c => c ≠ '/')).drop 1).reverse)

/-- One character of the case-insensitive regex `new RegExp('^'+n+'$','i')`
built from an unescaped name `n`: a dot matches anything, any other
character matches up to ASCII case. -/
def charIMatch (p c : Char) : Bool := p = '.' || p.toLower = c.toLower

/-- Anchored match of a pattern (as chars) against a subject (as chars). -/
def listIMatch : List Char → List Char → Bool
  | [], [] => true
  | p :: ps, c :: cs => charIMatch p c && listIMatch ps cs
  | _, _ => false

/-- Meaning of the JS test `new RegExp('^' + pat + '$', 'i').test s` for patterns whose only
regex metacharacter is `'.'` (the service embeds the raw folder name). -/
def regexIMatch (pat s : String) : Bool := listIMatch pat.data s.data

/-- Case-insensitive string equality (what the spec's sibling-uniqueness
sentence asks for). -/
def lowerEq (a b : String) : Bool := a.data.map Char.toLower == b.data.map Char.toLower

/-- A record of the `Folder` collection (model `src/models/Folder`). -/
structure Folder where
  fid : Nat
  name : String
  parentId : Option Nat
  ownerId : String
  path : String
  depth : Int
  isDeleted : Bool
  deletedAt : Option Nat
deriving DecidableEq

/-- The `deletedFolderInfo` snapshot stored on a soft-deleted document. -/
structure DeletedFolderInfo where
  folderId : Nat
  name : String
  path : String
  parentId : Option Nat
deriving DecidableEq

/-- A record of the `Document` collection (folder-interacting fields). -/
structure Document where
  did : Nat
  folderId : Option Nat
  ownerId : String
  isDeleted : Bool
  deletedAt : Option Nat
  deletedFolderInfo : Option DeletedFolderInfo
deriving DecidableEq

/-- The metadata store: both collections plus a fresh-id counter
(Mongo ObjectIds modelled as naturals). -/
structure DB where
  folders : List Folder
  documents : List Document
  nextId : Nat
deriving DecidableEq

/-- The three error classes thrown by the services
(`NotFoundError`, `ValidationError code`, `ConflictError code`). -/
inductive ApiError where
  | notFound (what : String)
  | validation (code : String)
  | conflict (code : String)
deriving DecidableEq

/-- Constant `MAX_FOLDER_DEPTH` from `src/models/Folder` (`MAX_DEPTH = 50`). -/
def MAX_FOLDER_DEPTH : Int := 50

/-- Query `FolderModel.findOne({_id, ownerId, isDeleted: false})`. -/
def findActiveFolder (db : DB) (id : Nat) (owner : String) : Option Folder :=
  db.folders.find? (fun g => g.fid == id && g.ownerId == owner && !g.isDeleted)

/-- Query `FolderModel.findOne({_id, ownerId})` (any deletion state). -/
def findAnyFolder (db : DB) (id : Nat) (owner : String) : Option Folder :=
  db.folders.find? (fun g => g.fid == id && g.ownerId == owner)

/-- The filter of `FolderService.checkUniqueName`: a non-deleted sibling
under `(ownerId, parentId)` whose name matches the case-insensitive
regex built from the (unescaped) requested name, excluding `excludeId`. -/
def conflictExists (db : DB) (owner : String) (parentId : Option Nat)
    (name : String) (excludeId : Option Nat) : Bool :=
  db.folders.any (fun g =>
    g.ownerId == owner && g.parentId == parentId && regexIMatch name g.name &&
      !g.isDeleted &&
      (match excludeId with
       | some e => g.fid != e
       | none => true))

/-- Model of `FolderService.checkUniqueName`. -/
def checkUniqueName (db : DB) (owner : String) (parentId : Option Nat)
    (name : String) (excludeId : Option Nat) : Except ApiError Unit :=
  if conflictExists db owner parentId name excludeId then
    .error (.conflict "FOLDER_NAME_EXISTS")
  else
    .ok ()

/-- Model of `FolderService.generatePath`: root folders get `/name` and depth 0;
otherwise the (active, owned) parent is loaded, depth is
`parent.depth + 1` (rejected when `> MAX_FOLDER_DEPTH`) and the path is
`parent.path + "/" + name`. -/
def generatePath (db : DB) (owner : String) (parentId : Option Nat)
    (name : String) : Except ApiError (String × Int) :=
  match parentId with
  | none => .ok ("/" ++ name, 0)
  | some pid =>
    match findActiveFolder db pid owner with
    | none => .error (.notFound "Parent folder")
    | some parent =>
      if parent.depth + 1 > MAX_FOLDER_DEPTH then
        .error (.validation "FOLDER_MAX_DEPTH_EXCEEDED")
      else
        .ok (parent.path ++ "/" ++ name, parent.depth + 1)

/-- Model of `FolderService.create`: uniqueness check, then path/depth generation,
then insertion of the new record with a fresh id. -/
def folderCreate (db : DB) (owner name : String) (parentId : Option Nat) :
    Except ApiError (DB × Folder) :=
  match checkUniqueName db owner parentId name none with
  | .error e => .error e
  | .ok _ =>
    match generatePath db owner parentId name with
    | .error e => .error e
    | .ok pd =>
      let f : Folder :=
        ⟨db.nextId, name, parentId, owner, pd.1, pd.2, false, none⟩
      .ok ({ db with folders := db.folders ++ [f], nextId := db.nextId + 1 }, f)

/-- The `updateOne` of `FolderService.move` on the moved folder itself. -/
def moveSelfUpd (id : Nat) (pid : Option Nat) (newPath : String)
    (newDepth : Int) (g : Folder) : Folder :=
  if g.fid == id then
    { g with parentId := pid, path := newPath, depth := newDepth }
  else g

/-- The `updateMany` cascade of `FolderService.move`: every folder of the
owner whose path extends `oldPath + "/"` gets the prefix replaced by
`newPath` and `delta` added to its depth. -/
def moveCascadeUpd (owner oldPath newPath : String) (delta : Int)
    (g : Folder) : Folder :=
  if g.ownerId == owner && strStartsWith (oldPath ++ "/") g.path then
    { g with path := newPath ++ strDropLen (strLen oldPath) g.path,
             depth := g.depth + delta }
  else g

/-- Model of `FolderService.getMaxDescendantDepth`: the largest depth among the
owner's path-descendants of `f`, or `f.depth` when there are none. -/
def maxDescendantDepth (db : DB) (f : Folder) : Int :=
  match (db.folders.filter (fun g =>
      g.ownerId == f.ownerId && strStartsWith (f.path ++ "/") g.path)).map
      (fun g => g.depth) with
  | [] => f.depth
  | d :: ds => ds.foldl max d

/-- The cycle check of `FolderService.move`: with a target parent, reject
when the target's path extends `folder.path + "/"`. -/
def moveTargetCheck (db : DB) (owner : String) (folder : Folder)
    (newParentId : Option Nat) : Option ApiError :=
  match newParentId with
  | none => none
  | some pid =>
    match findActiveFolder db pid owner with
    | none => some (ApiError.notFound "Target folder")
    | some target =>
      if strStartsWith (folder.path ++ "/") target.path then
        some (ApiError.validation "FOLDER_MOVE_INTO_SELF")
      else none

/-- Model of `FolderService.move`: load, no-op on unchanged parent, cycle check,
uniqueness in the destination, new path/depth, descendant depth-limit
check, then the self `updateOne` followed by the cascade `updateMany`
(in that order, on the already self-updated collection). -/
def folderMove (db : DB) (id : Nat) (owner : String)
    (newParentId : Option Nat) : Except ApiError DB :=
  match findActiveFolder db id owner with
  | none => .error (.notFound "Folder")
  | some folder =>
    if folder.parentId == newParentId then .ok db
    else
      match moveTargetCheck db owner folder newParentId with
      | some e => .error e
      | none =>
        match checkUniqueName db owner newParentId folder.name (some id) with
        | .error e => .error e
        | .ok _ =>
          match generatePath db owner newParentId folder.name with
          | .error e => .error e
          | .ok pd =>
            let depthIncrease := pd.2 - folder.depth
            if maxDescendantDepth db folder + depthIncrease > MAX_FOLDER_DEPTH then
              .error (.validation "FOLDER_MAX_DEPTH_EXCEEDED")
            else
              let fs1 := db.folders.map (moveSelfUpd id newParentId pd.1 pd.2)
              let fs2 := fs1.map (moveCascadeUpd owner folder.path pd.1 depthIncrease)
              .ok { db with folders := fs2 }

/-- The self `updateOne` of `FolderService.updatePathsForRename`. -/
def renameSelfUpd (id : Nat) (newName newPath : String) (g : Folder) : Folder :=
  if g.fid == id then { g with name := newName, path := newPath } else g

/-- The `updateMany` cascade of `FolderService.updatePathsForRename`:
prefix replacement only, depth and all other fields untouched. -/
def renameCascadeUpd (owner oldPath newPath : String) (g : Folder) : Folder :=
  if g.ownerId == owner && strStartsWith (oldPath ++ "/") g.path then
    { g with path := newPath ++ strDropLen (strLen oldPath) g.path }
  else g

/-- The new path computed by `updatePathsForRename`:
`parentPath ? parentPath + "/" + newName : "/" + newName`. -/
def renameNewPath (oldPath newName : String) : String :=
  if parentPathOf oldPath == "" then "/" ++ newName
  else parentPathOf oldPath ++ "/" ++ newName

/-- Model of `FolderService.update` restricted to a name change (the only part the
spec's rename claims are about): load, no-op when the name is unchanged,
uniqueness excluding self, then `updatePathsForRename` (self update
followed by the descendant cascade on the already-updated collection). -/
def folderRename (db : DB) (id : Nat) (owner : String) (newName : String) :
    Except ApiError DB :=
  match findActiveFolder db id owner with
  | none => .error (.notFound "Folder")
  | some folder =>
    if newName == folder.name then .ok db
    else
      match checkUniqueName db owner folder.parentId newName (some id) with
      | .error e => .error e
      | .ok _ =>
        let newPath := renameNewPath folder.path newName
        let fs1 := db.folders.map (renameSelfUpd id newName newPath)
        let fs2 := fs1.map (renameCascadeUpd folder.ownerId folder.path newPath)
        .ok { db with folders := fs2 }

/-- Membership of a document's nullable `folderId` in a Mongo `$in` list
of folder ids (`null` never matches). -/
def optMemNat : Option Nat → List Nat → Bool
  | none, _ => false
  | some n, l => l.contains n

/-- The ids collected by `softDelete`/`permanentDelete`:
`{_id: id} ∪ {path: ^escapedPath/}` for the owner. -/
def subtreeIds (l : List Folder) (id : Nat) (owner : String) (path : String) : List Nat :=
  (l.filter (fun g =>
      g.ownerId == owner && (g.fid == id || strStartsWith (path ++ "/") g.path))).map
    (fun g => g.fid)

/-- Model of `FolderService.softDelete`: mark the folder, then every non-deleted
path-descendant of the owner, then every non-deleted document whose
`folderId` is in the collected subtree ids. -/
def folderSoftDelete (db : DB) (id : Nat) (owner : String) (now : Nat) :
    Except ApiError DB :=
  match findActiveFolder db id owner with
  | none => .error (.notFound "Folder")
  | some folder =>
    let fs1 := db.folders.map (fun g =>
      if g.fid == id then { g with isDeleted := true, deletedAt := some now } else g)
    let fs2 := fs1.map (fun g =>
      if g.ownerId == owner && strStartsWith (folder.path ++ "/") g.path && !g.isDeleted
      then { g with isDeleted := true, deletedAt := some now } else g)
    let ids := subtreeIds fs2 id owner folder.path
    let ds := db.documents.map (fun d =>
      if d.ownerId == owner && optMemNat d.folderId ids && !d.isDeleted then
        { d with isDeleted := true, deletedAt := some now }
      else d)
    .ok { db with folders := fs2, documents := ds }

/-- Model of `FolderService.restore`: load as deleted, require a live parent when
parented, then un-delete only this folder. -/
def folderRestore (db : DB) (id : Nat) (owner : String) : Except ApiError DB :=
  match db.folders.find? (fun g => g.fid == id && g.ownerId == owner && g.isDeleted) with
  | none => .error (.notFound "Folder")
  | some folder =>
    let restored : DB :=
      { db with folders := db.folders.map (fun g =>
          if g.fid == id then { g with isDeleted := false, deletedAt := none } else g) }
    match folder.parentId with
    | some p =>
      match findActiveFolder db p owner with
      | none => .error (.validation "FOLDER_PARENT_DELETED")
      | some _ => .ok restored
    | none => .ok restored

/-- Model of `FolderService.permanentDelete`: load in any deletion state, collect
the subtree ids, null out `folderId` on every owner document referencing
one of them (no deletion-state filter), then delete the folder records.
Returns the state with `(foldersDeleted, documentsDetached)`. -/
def folderPermanentDelete (db : DB) (id : Nat) (owner : String) :
    Except ApiError (DB × Nat × Nat) :=
  match findAnyFolder db id owner with
  | none => .error (.notFound "Folder")
  | some folder =>
    let ids := subtreeIds db.folders id owner folder.path
    let detached := (db.documents.filter (fun d =>
      d.ownerId == owner && optMemNat d.folderId ids)).length
    let ds := db.documents.map (fun d =>
      if d.ownerId == owner && optMemNat d.folderId ids then
        { d with folderId := none }
      else d)
    let removed := (db.folders.filter (fun g => ids.contains g.fid)).length
    let fs := db.folders.filter (fun g => !(ids.contains g.fid))
    .ok ({ db with folders := fs, documents := ds }, removed, detached)

/-- Query `DocumentModel.findOne({_id, ownerId, isDeleted: true})`. -/
def findDeletedDoc (db : DB) (did : Nat) (owner : String) : Option Document :=
  db.documents.find? (fun d => d.did == did && d.ownerId == owner && d.isDeleted)

/-- Character-level worker for JS `s.split('/')`: walk the characters,
cutting a segment at every slash (`acc` holds the reversed current
segment). -/
def splitSegsAux : List Char → List Char → List String
  | [], acc => [String.mk acc.reverse]
  | c :: cs, acc =>
    if c = '/' then String.mk acc.reverse :: splitSegsAux cs []
    else splitSegsAux cs (c :: acc)

/-- Value of JS `s.split('/')`. -/
def splitSlash (s : String) : List String := splitSegsAux s.data []

/-- Computation `folderInfo.path.split('/').filter(Boolean)`. -/
def pathSegments (s : String) : List String :=
  (splitSlash s).filter (fun x => x ≠ "")

/-- The per-segment loop of `DocumentService.recreateFolderFromInfo`.
Each step extends the cumulative path, reuses the first owner folder
found at that exact path (any deletion state), and otherwise inserts a
fresh one with depth `i`.  `failAt` injects the store failure that the
service's `try/catch` swallows: when the step `i` create would run, the
whole recreation instead returns `none`, keeping the folders created so
far (each create was already committed). -/
def recreateLoop (owner : String) (failAt : Option Nat) :
    List String → Nat → String → Option Nat → Option Folder → DB →
    Option Folder × DB
  | [], _, _, _, last, db => (last, db)
  | p :: rest, i, curPath, parentId, _, db =>
    let newPath := curPath ++ "/" ++ p
    match db.folders.find? (fun g => g.ownerId == owner && g.path == newPath) with
    | some f => recreateLoop owner failAt rest (i + 1) newPath (some f.fid) (some f) db
    | none =>
      if failAt == some i then (none, db)
      else
        let nf : Folder := ⟨db.nextId, p, parentId, owner, newPath, (i : Int), false, none⟩
        recreateLoop owner failAt rest (i + 1) newPath (some nf.fid) (some nf)
          { db with folders := db.folders ++ [nf], nextId := db.nextId + 1 }

/-- Model of `DocumentService.recreateFolderFromInfo`. -/
def recreateFolderFromInfo (db : DB) (owner : String) (info : DeletedFolderInfo)
    (failAt : Option Nat) : Option Folder × DB :=
  match pathSegments info.path with
  | [] => (none, db)
  | p :: rest => recreateLoop owner failAt (p :: rest) 0 "" none none db

/-- Model of `DocumentService.restore`: with a snapshot, re-attach when the exact
folder id still exists for the owner (no deletion-state filter),
otherwise recreate when `recreateFolder` is on; with no snapshot fall
back to the stored `folderId` when it still resolves; finally clear the
deletion markers and the snapshot and store the chosen `folderId`.
Returns the updated document, the `folderRecreated` flag, and the state. -/
def docRestore (db : DB) (did : Nat) (owner : String) (recreateFolder : Bool)
    (failAt : Option Nat) : Except ApiError (Document × Bool × DB) :=
  match findDeletedDoc db did owner with
  | none => .error (.notFound "Document")
  | some d =>
    let chosen : Option Nat × Bool × DB :=
      match d.deletedFolderInfo with
      | some info =>
        match findAnyFolder db info.folderId owner with
        | some f => (some f.fid, false, db)
        | none =>
          if recreateFolder then
            match recreateFolderFromInfo db owner info failAt with
            | (some f, db1) => (some f.fid, true, db1)
            | (none, db1) => (none, false, db1)
          else (none, false, db)
      | none =>
        match d.folderId with
        | some fid0 =>
          match findAnyFolder db fid0 owner with
          | some f => (some f.fid, false, db)
          | none => (none, false, db)
        | none => (none, false, db)
    let d' : Document :=
      { d with isDeleted := false, deletedAt := none,
               deletedFolderInfo := none, folderId := chosen.1 }
    .ok (d', chosen.2.1,
      { chosen.2.2 with documents := chosen.2.2.documents.map (fun x =>
          if x.did == d.did then d' else x) })

/-- The tree-shape invariant of the spec: a root folder has depth 0 and
path `/name`; a parented folder has a parent record and its depth/path
are derived from it. -/
def treeInvariantB (db : DB) : Bool :=
  db.folders.all (fun f =>
    match f.parentId with
    | none => f.depth == 0 && f.path == "/" ++ f.name
    | some p =>
      match db.folders.find? (fun g => g.fid == p) with
      | none => false
      | some g => f.depth == g.depth + 1 && f.path == g.path ++ "/" ++ f.name)

/-- One owner, one consistent root folder `A` at `/A`. -/
def dbSelfMove : DB := ⟨[⟨0, "A", none, "u", "/A", 0, false, none⟩], [], 1⟩

/-- Owner `u` with root `B` at `/B` and child `C` at `/B/C`. -/
def dbB : DB := ⟨[⟨0, "B", none, "u", "/B", 0, false, none⟩,
                 ⟨1, "C", some 0, "u", "/B/C", 1, false, none⟩], [], 2⟩

/-- Folder `/Docs` containing one document, both live. -/
def dbDocs : DB := ⟨[⟨0, "Docs", none, "u", "/Docs", 0, false, none⟩],
                    [⟨0, some 0, "u", false, none, none⟩], 1⟩

/-- The C3 scenario: cascade soft-delete of `/Docs`, then permanent
delete of `/Docs`, then restore of the document. -/
def c3run : Except ApiError (Document × Bool × DB) :=
  match folderSoftDelete dbDocs 0 "u" 1 with
  | .error e => .error e
  | .ok st1 =>
    match folderPermanentDelete st1 0 "u" with
    | .error e => .error e
    | .ok r => docRestore r.1 0 "u" true none

/-- A soft-deleted folder plus a soft-deleted document whose
`deletedFolderInfo` snapshot points at that folder. -/
def dbSnapDeleted : DB := ⟨[⟨0, "A", none, "u", "/A", 0, true, some 5⟩],
    [⟨0, none, "u", true, some 5, some ⟨0, "A", "/A", none⟩⟩], 1⟩

/-- One live root folder named `abc`. -/
def dbAbc : DB := ⟨[⟨0, "abc", none, "u", "/abc", 0, false, none⟩], [], 1⟩

/-- Root `A` at `/A` with child `B` at `/A/B`, both live. -/
def dbAB : DB := ⟨[⟨0, "A", none, "u", "/A", 0, false, none⟩,
                  ⟨1, "B", some 0, "u", "/A/B", 1, false, none⟩], [], 2⟩

/-- Creating a chain of `n` nested folders named `f`, each the child of
the previous one, starting from an empty owner tree. -/
def chainCreate : Nat → Except ApiError (DB × Option Nat)
  | 0 => .ok (⟨[], [], 0⟩, none)
  | n + 1 =>
    match chainCreate n with
    | .error e => .error e
    | .ok (db, pid) =>
      match folderCreate db "u" "f" pid with
      | .error e => .error e
      | .ok r => .ok (r.1, some r.2.fid)

/-- Whether `chainCreate n` succeeded. -/
def chainOk (n : Nat) : Bool :=
  match chainCreate n with
  | .ok _ => true
  | .error _ => false

/-- The error produced by `chainCreate n`, when any. -/
def chainError (n : Nat) : Option ApiError :=
  match chainCreate n with
  | .ok _ => none
  | .error e => some e

/-- The depth of the most recently created chain folder. -/
def chainLastDepth (n : Nat) : Option Int :=
  match chainCreate n with
  | .ok (db, _) => db.folders.getLast?.map (fun f : Folder => f.depth)
  | .error _ => none

/-- The cumulative paths visited by the recreation walk: element `j` is
the path of the folder looked up or created at segment `j`. -/
def cumPaths (cur : String) : List String → List String
  | [] => []
  | p :: rest => (cur ++ "/" ++ p) :: cumPaths (cur ++ "/" ++ p) rest

/-- Roots `A` and `B` plus child `/A/C`, all live, for the move witness. -/
def dbMoveWit : DB := ⟨[⟨0, "A", none, "u", "/A", 0, false, none⟩,
                       ⟨1, "B", none, "u", "/B", 0, false, none⟩,
                       ⟨2, "C", some 0, "u", "/A/C", 1, false, none⟩], [], 3⟩

/-- A mixed state for the delete-cascade witness: subtree `/B` with a
live child, an already-deleted grandchild, an unrelated root `E`, a
same-path folder of another owner, and documents in several states. -/
def dbC7 : DB :=
  ⟨[⟨0, "B", none, "u", "/B", 0, false, none⟩,
    ⟨1, "C", some 0, "u", "/B/C", 1, false, none⟩,
    ⟨2, "D", some 1, "u", "/B/C/D", 2, true, some 3⟩,
    ⟨3, "E", none, "u", "/E", 0, false, none⟩,
    ⟨4, "C", none, "v", "/B/C", 0, false, none⟩],
   [⟨0, some 1, "u", false, none, none⟩,
    ⟨1, some 3, "u", false, none, none⟩,
    ⟨2, some 0, "u", true, some 4, none⟩,
    ⟨3, none, "u", false, none, none⟩], 5⟩

/-- One live root folder named `Docs` for the case-insensitivity witness. -/
def dbCaseWit : DB := ⟨[⟨0, "Docs", none, "u", "/Docs", 0, false, none⟩], [], 1⟩

/-- A deleted document whose snapshot folder is gone, used with an
injected recreation failure. -/
def dbC9fail : DB :=
  ⟨[], [⟨0, none, "u", true, some 1, some ⟨7, "A", "/A", none⟩⟩], 1⟩

/-- One live folder `/A`, reused by the recreation walk of `/A/B`. -/
def dbC9walk : DB := ⟨[⟨0, "A", none, "u", "/A", 0, false, none⟩], [], 1⟩

/-- C1: the tree-shape invariant does NOT hold in every reachable state.
Starting from the consistent single-folder state `dbSelfMove`, the
public `move` operation with `newParentId` equal to the folder's own id
is accepted (the cycle check only catches strict path-descendants,
although the code comments say it prevents moving a folder into itself)
and yields a folder that is its own parent with `depth = 2` and path
`/A/A/A`, violating `depth = parent.depth + 1`. -/
theorem C1_tree_invariant_broken_by_self_move :
    treeInvariantB dbSelfMove = true ∧
    folderMove dbSelfMove 0 "u" (some 0) =
      .ok ⟨[⟨0, "A", some 0, "u", "/A/A/A", 2, false, none⟩], [], 1⟩ ∧
    treeInvariantB ⟨[⟨0, "A", some 0, "u", "/A/A/A", 2, false, none⟩], [], 1⟩ = false := by
  decide

/-- C2 counterexample: the 51st folder of a nested chain does NOT fail.
`generatePath` only rejects `depth > 50`, and the 51st chain folder has
depth 50, so all 51 creations succeed. -/
theorem C2_chain_51st_succeeds :
    chainError 51 = none ∧ chainOk 51 = true ∧ chainLastDepth 51 = some 50 := by
  decide

/-- C2 amended: creating a chain of nested folders succeeds for the
first 51 folders (depths 0..50) and the creation of the 52nd folder
(depth 51) fails with `ValidationError FOLDER_MAX_DEPTH_EXCEEDED`. -/
theorem C2_chain_52nd_fails :
    chainOk 51 = true ∧
    chainError 52 = some (.validation "FOLDER_MAX_DEPTH_EXCEEDED") := by
  decide

/-- C3 counterexample: in the cascade scenario the restored document is
NOT re-attached and `/Docs` is NOT recreated — the folder cascade never
captured `deletedFolderInfo` and the permanent delete nulled the
document's `folderId`, so the restore finds nothing to rebuild. -/
theorem C3_cascade_restore_no_recreation :
    (match c3run with
     | .ok r => r.2.2.folders.any (fun f => f.path == "/Docs") ||
                r.1.folderId.isSome
     | .error _ => true) = false := by
  decide

/-- C3 amended: for a document soft-deleted by the `/Docs` folder
cascade, after `/Docs` is permanently deleted, restoring the document
succeeds but restores it to the root: `folderId = null`,
`folderRecreated = false`, and no folder is recreated. -/
theorem C3_cascade_restore_to_root :
    c3run = .ok (⟨0, none, "u", false, none, none⟩, false,
      ⟨[], [⟨0, none, "u", false, none, none⟩], 1⟩) := by
  decide

/-- C4 counterexample: the re-attach lookup has no `isDeleted` filter.
With the snapshot folder still present but soft-deleted, the claim says
the recreation path is taken, yet the code re-attaches the document to
the soft-deleted folder (`folderId = some 0`, `folderRecreated = false`). -/
theorem C4_reattach_ignores_deletion :
    dbSnapDeleted.folders.any (fun f => f.fid == 0 && !f.isDeleted) = false ∧
    docRestore dbSnapDeleted 0 "u" true none =
      .ok (⟨0, some 0, "u", false, none, none⟩, false,
        ⟨[⟨0, "A", none, "u", "/A", 0, true, some 5⟩],
         [⟨0, some 0, "u", false, none, none⟩], 1⟩) := by
  decide

/-- C5 counterexample: moving folder `B` (path `/B`, with child `/B/C`)
to new parent `B` itself is a successful move, but the folder's final
path is `/B/B/B` and depth 2, not the `path`/`depth` computed against
the new parent (`/B/B`, depth 1): after its own update the folder also
matches the descendant cascade. -/
theorem C5_self_move_breaks_cascade_claim :
    folderMove dbB 0 "u" (some 0) =
      .ok ⟨[⟨0, "B", some 0, "u", "/B/B/B", 2, false, none⟩,
           ⟨1, "C", some 0, "u", "/B/B/C", 2, false, none⟩], [], 2⟩ ∧
    ("/B/B/B" : String) ≠ "/B/B" ∧ (2 : Int) ≠ 1 := by
  decide

/-- C6 counterexample: renaming `A` (path `/A`, with child `/A/B`) to
the name `A/x` succeeds, but `A`'s final path is `/A/x/x`, not
`parentPath + "/" + N = /A/x`: the new path extends the old one, so the
renamed folder itself also matches the descendant cascade. -/
theorem C6_slash_rename_breaks_claim :
    folderRename dbAB 0 "u" "A/x" =
      .ok ⟨[⟨0, "A/x", none, "u", "/A/x/x", 0, false, none⟩,
           ⟨1, "B", some 0, "u", "/A/x/B", 1, false, none⟩], [], 2⟩ ∧
    ("/A/x/x" : String) ≠ "/A/x" := by
  decide

/-- C8 counterexample: the uniqueness check embeds the requested name in
a regex without escaping, so `a.c` (dot = wildcard) collides with the
existing sibling `abc` and the create fails with `FOLDER_NAME_EXISTS`
even though the two names are not case-insensitively equal. -/
theorem C8_regex_conflict_without_equality :
    lowerEq "a.c" "abc" = false ∧
    folderCreate dbAbc "u" "a.c" none = .error (.conflict "FOLDER_NAME_EXISTS") := by
  decide

/-- C10 counterexample: the self-move of `/A` is accepted and completes,
but the final record is `parentId = self`, path `/A/A/A` and depth 2 —
not the claimed `oldPath + "/" + name = /A/A` and `oldDepth + 1 = 1`,
because the moved folder is caught again by the descendant cascade. -/
theorem C10_self_move_final_state_differs :
    folderMove dbSelfMove 0 "u" (some 0) =
      .ok ⟨[⟨0, "A", some 0, "u", "/A/A/A", 2, false, none⟩], [], 1⟩ ∧
    ("/A/A/A" : String) ≠ "/A/A" ∧ (2 : Int) ≠ 0 + 1 := by
  decide

/-- Appending strings appends their character lists. -/
theorem string_data_append (a b : String) : (a ++ b).data = a.data ++ b.data := by
  cases a; cases b; rfl

/-- Strings with equal character lists are equal. -/
theorem string_eq_of_data {a b : String} (h : a.data = b.data) : a = b := by
  cases a; cases b; cases h; rfl

/-- A string is a prefix of itself followed by anything. -/
theorem strStartsWith_append_self (p q : String) : strStartsWith p (p ++ q) = true := by
  simp [strStartsWith, string_data_append, List.isPrefixOf_iff_prefix]

/-- A strictly longer extension is never a prefix of the original. -/
theorem strStartsWith_extend_false (p : String) : strStartsWith (p ++ "/") p = false := by
  unfold strStartsWith
  cases h : ((p ++ "/").data.isPrefixOf p.data) with
  | false => rfl
  | true =>
    exfalso
    rw [List.isPrefixOf_iff_prefix] at h
    have h2 := h.length_le
    rw [string_data_append, List.length_append] at h2
    have h3 : ("/" : String).data.length = 1 := rfl
    omega

/-- Dropping the length of a prefix recovers the appended suffix. -/
theorem strDropLen_append_self (p q : String) : strDropLen (strLen p) (p ++ q) = q := by
  apply string_eq_of_data
  show (p ++ q).data.drop p.data.length = q.data
  rw [string_data_append, List.drop_left]

/-- String append is associative. -/
theorem strApp_assoc (a b c : String) : a ++ b ++ c = a ++ (b ++ c) := by
  apply string_eq_of_data
  simp [string_data_append]

/-- Record maps that keep id, owner and path fixed do not change the
collected subtree ids. -/
theorem subtreeIds_map_stable (l : List Folder) (m : Folder → Folder)
    (hm : ∀ g, (m g).fid = g.fid ∧ (m g).ownerId = g.ownerId ∧ (m g).path = g.path)
    (id : Nat) (owner path : String) :
    subtreeIds (l.map m) id owner path = subtreeIds l id owner path := by
  unfold subtreeIds
  induction l with
  | nil => rfl
  | cons g gs ih =>
    simp only [List.map_cons, List.filter_cons, (hm g).1, (hm g).2.1, (hm g).2.2]
    cases hc : (g.ownerId == owner && (g.fid == id || strStartsWith (path ++ "/") g.path)) with
    | false => simpa using ih
    | true => simp [ih, (hm g).1]

/-- C7: softDelete of folder F marks F, every not-yet-deleted path-prefix
descendant of F owned by the same owner, and every non-deleted owner
document whose folderId is in the collected subtree-id set, all with
`deletedAt = now`; permanentDelete instead removes exactly the folder
records whose id is in that set and maps every owner document referencing
one of them to the same record with `folderId = null` (no deletion-state
filter, no document record removed). -/
theorem C7_delete_cascades (db : DB) (id : Nat) (owner : String) (now : Nat) (F : Folder) :
    (findActiveFolder db id owner = some F →
      folderSoftDelete db id owner now = .ok
        { db with
          folders := db.folders.map (fun g =>
            if g.fid == id || (g.ownerId == owner &&
                strStartsWith (F.path ++ "/") g.path && !g.isDeleted) then
              { g with isDeleted := true, deletedAt := some now }
            else g),
          documents := db.documents.map (fun d =>
            if d.ownerId == owner &&
                optMemNat d.folderId (subtreeIds db.folders id owner F.path) &&
                !d.isDeleted then
              { d with isDeleted := true, deletedAt := some now }
            else d) }) ∧
    (findAnyFolder db id owner = some F →
      ∃ st cnt₁ cnt₂, folderPermanentDelete db id owner = .ok (st, cnt₁, cnt₂) ∧
        st.documents = db.documents.map (fun d =>
          if d.ownerId == owner &&
              optMemNat d.folderId (subtreeIds db.folders id owner F.path) then
            { d with folderId := none }
          else d) ∧
        st.documents.length = db.documents.length ∧
        (∀ g ∈ st.folders,
          ¬ (g.fid = id ∨ (g.ownerId = owner ∧
              strStartsWith (F.path ++ "/") g.path = true)))) := by
  constructor
  · intro hF
    unfold folderSoftDelete
    rw [hF]
    dsimp only
    have hfold :
        (db.folders.map (fun g =>
            if g.fid == id then { g with isDeleted := true, deletedAt := some now } else g)).map
          (fun g =>
            if g.ownerId == owner && strStartsWith (F.path ++ "/") g.path && !g.isDeleted
            then { g with isDeleted := true, deletedAt := some now } else g) =
        db.folders.map (fun g =>
          if g.fid == id || (g.ownerId == owner &&
              strStartsWith (F.path ++ "/") g.path && !g.isDeleted) then
            { g with isDeleted := true, deletedAt := some now }
          else g) := by
      rw [List.map_map]
      apply List.map_congr_left
      intro g _
      show (fun g =>
          if g.ownerId == owner && strStartsWith (F.path ++ "/") g.path && !g.isDeleted
          then { g with isDeleted := true, deletedAt := some now } else g)
        (if g.fid == id then { g with isDeleted := true, deletedAt := some now } else g) = _
      cases hfid : (g.fid == id) with
      | true => simp [hfid]
      | false => simp [hfid]
    rw [hfold]
    have hids : subtreeIds (db.folders.map (fun g =>
        if g.fid == id || (g.ownerId == owner &&
            strStartsWith (F.path ++ "/") g.path && !g.isDeleted) then
          { g with isDeleted := true, deletedAt := some now }
        else g)) id owner F.path = subtreeIds db.folders id owner F.path := by
      apply subtreeIds_map_stable
      intro g
      cases hc : (g.fid == id || (g.ownerId == owner &&
          strStartsWith (F.path ++ "/") g.path && !g.isDeleted)) <;> simp [hc]
    rw [hids]
  · intro hFa
    unfold folderPermanentDelete
    rw [hFa]
    refine ⟨_, _, _, rfl, rfl, by simp, ?_⟩
    intro g hg hbad
    have hmem := List.mem_filter.mp hg
    have hnotin : (subtreeIds db.folders id owner F.path).contains g.fid = false := by
      have := hmem.2
      simpa using this
    have hin : (subtreeIds db.folders id owner F.path).contains g.fid = true := by
      rw [List.elem_iff]
      unfold subtreeIds
      rcases hbad with hfid | ⟨howner, hpath⟩
      · have hFmem := List.mem_of_find?_eq_some hFa
        have hFpred := List.find?_some hFa
        simp only [Bool.and_eq_true, beq_iff_eq] at hFpred
        refine List.mem_map.mpr ⟨F, ?_, ?_⟩
        · rw [List.mem_filter]
          refine ⟨hFmem, ?_⟩
          simp [hFpred.1, hFpred.2]
        · rw [hFpred.1, hfid]
      · refine List.mem_map.mpr ⟨g, ?_, rfl⟩
        rw [List.mem_filter]
        refine ⟨hmem.1, ?_⟩
        simp [howner, hpath]
    rw [hnotin] at hin
    exact Bool.false_ne_true hin

/-- C5 amended: a successful move of folder F to a new parent P sets
F.parentId = P, F.path and F.depth computed against P, and rewrites every
other folder matching the owner + old-path-prefix filter by replacing the
old-path prefix with the new path and adding the depth delta — provided
the new path does not itself extend F's old path by a slash (in
particular P is not F itself), since otherwise the moved folder is caught
again by the descendant bulk update. -/
theorem C5_move_cascade (db : DB) (id pid : Nat) (owner : String) (F P : Folder)
    (hF : findActiveFolder db id owner = some F)
    (hne : F.parentId ≠ some pid)
    (hP : findActiveFolder db pid owner = some P)
    (hdesc : strStartsWith (F.path ++ "/") P.path = false)
    (huniq : conflictExists db owner (some pid) F.name (some id) = false)
    (hdepth : ¬ P.depth + 1 > MAX_FOLDER_DEPTH)
    (hmax : ¬ maxDescendantDepth db F + (P.depth + 1 - F.depth) > MAX_FOLDER_DEPTH)
    (hext : strStartsWith (F.path ++ "/") (P.path ++ "/" ++ F.name) = false) :
    folderMove db id owner (some pid) = .ok
      { db with folders := db.folders.map (fun g =>
          if g.fid == id then
            { g with parentId := some pid, path := P.path ++ "/" ++ F.name,
                     depth := P.depth + 1 }
          else if g.ownerId == owner && strStartsWith (F.path ++ "/") g.path then
            { g with path := (P.path ++ "/" ++ F.name) ++ strDropLen (strLen F.path) g.path,
                     depth := g.depth + (P.depth + 1 - F.depth) }
          else g) } := by
  have hne2 : (F.parentId == some pid) = false := by
    simp [hne]
  unfold folderMove moveTargetCheck checkUniqueName generatePath
  rw [hF]
  simp only [hne2, hP, hdesc, huniq, Bool.false_eq_true, if_false,
    if_neg hdepth, if_neg hmax]
  rw [List.map_map]
  congr 1
  congr 1
  apply List.map_congr_left
  intro g _
  show (moveCascadeUpd owner F.path (P.path ++ "/" ++ F.name) (P.depth + 1 - F.depth))
      (moveSelfUpd id (some pid) (P.path ++ "/" ++ F.name) (P.depth + 1) g) = _
  unfold moveSelfUpd moveCascadeUpd
  cases hfid : (g.fid == id) with
  | true => simp [hfid, hext]
  | false => simp [hfid]

/-- The slash-terminated old path is a prefix of the extended path. -/
theorem strStartsWith_slash_mid (p n : String) :
    strStartsWith (p ++ "/") (p ++ "/" ++ n) = true :=
  strStartsWith_append_self (p ++ "/") n

/-- Dropping the base path from `p ++ "/" ++ n` leaves `"/" ++ n`. -/
theorem strDropLen_slash (p n : String) :
    strDropLen (strLen p) (p ++ "/" ++ n) = "/" ++ n := by
  rw [strApp_assoc]
  exact strDropLen_append_self p ("/" ++ n)

/-- C10 amended: moving a folder under its own id is never rejected with
FOLDER_MOVE_INTO_SELF (the descendant check compares against
`F.path + "/"`, which F's own path never extends), and when the
uniqueness and depth checks pass, the move completes with
F.parentId = F's own id — but, because the moved folder then matches the
descendant bulk update, its final path is
`oldPath + "/" + name + "/" + name` and its final depth is
`oldDepth + 2`, not `oldPath + "/" + name` and `oldDepth + 1`. -/
theorem C10_self_move_completes :
    (∀ (db : DB) (id : Nat) (owner : String),
      folderMove db id owner (some id) ≠
        .error (.validation "FOLDER_MOVE_INTO_SELF")) ∧
    (∀ (db : DB) (id : Nat) (owner : String) (F : Folder),
      findActiveFolder db id owner = some F →
      (∀ g ∈ db.folders, g.fid = id → g = F) →
      F.parentId ≠ some id →
      conflictExists db owner (some id) F.name (some id) = false →
      ¬ F.depth + 1 > MAX_FOLDER_DEPTH →
      ¬ maxDescendantDepth db F + 1 > MAX_FOLDER_DEPTH →
      folderMove db id owner (some id) = .ok
        { db with folders := db.folders.map (fun g =>
            if g.fid == id then
              { g with parentId := some id,
                       path := F.path ++ "/" ++ F.name ++ "/" ++ F.name,
                       depth := F.depth + 2 }
            else if g.ownerId == owner && strStartsWith (F.path ++ "/") g.path then
              { g with path := (F.path ++ "/" ++ F.name) ++ strDropLen (strLen F.path) g.path,
                       depth := g.depth + 1 }
            else g) }) := by
  constructor
  · intro db id owner heq
    unfold folderMove moveTargetCheck checkUniqueName generatePath at heq
    cases h : findActiveFolder db id owner with
    | none => rw [h] at heq; simp at heq
    | some folder =>
      rw [h] at heq
      by_cases hpid : (folder.parentId == some id) = true
      · simp [hpid] at heq
      · cases hc : conflictExists db owner (some id) folder.name (some id) with
        | true => simp [hpid, h, hc, strStartsWith_extend_false] at heq
        | false =>
          by_cases hd : folder.depth + 1 > MAX_FOLDER_DEPTH
          · simp [hpid, h, hc, strStartsWith_extend_false, hd] at heq
          · by_cases hm : maxDescendantDepth db folder + 1 > MAX_FOLDER_DEPTH
            · simp [hpid, h, hc, strStartsWith_extend_false, hd, hm] at heq
            · simp [hpid, h, hc, strStartsWith_extend_false, hd, hm] at heq
  · intro db id owner F hF hid hne huniq hdepth hmax
    have hne2 : (F.parentId == some id) = false := by simp [hne]
    unfold folderMove moveTargetCheck checkUniqueName generatePath
    rw [hF]
    simp only [hne2, huniq, Bool.false_eq_true, if_false, hF,
      strStartsWith_extend_false, add_sub_cancel_left, if_neg hdepth, if_neg hmax]
    rw [List.map_map]
    congr 1
    congr 1
    apply List.map_congr_left
    intro g hg
    show (moveCascadeUpd owner F.path (F.path ++ "/" ++ F.name) 1)
        (moveSelfUpd id (some id) (F.path ++ "/" ++ F.name) (F.depth + 1) g) = _
    unfold moveSelfUpd moveCascadeUpd
    cases hfid : (g.fid == id) with
    | true =>
      have hgF : g = F := hid g hg (by simpa using hfid)
      subst hgF
      have hpred := List.find?_some hF
      simp only [Bool.and_eq_true, beq_iff_eq] at hpred
      simp [hfid, strStartsWith_slash_mid, strDropLen_slash]
      rw [if_pos hpred.1.2]
      simp only [← strApp_assoc, Folder.mk.injEq, true_and, and_true]
      omega
    | false =>
      simp only [hfid, Bool.false_eq_true, if_false]

/-- C6 amended: a successful rename of folder F to name N sets F.name = N
and F.path = parentPath + "/" + N, and every descendant (owner +
old-path-prefix match) has only the old-path prefix of its path replaced
by the new path — depth and all other fields unchanged — provided the
new path does not extend F's old path by a slash (true whenever N
contains no slash); otherwise the renamed folder itself is caught again
by the cascade. -/
theorem C6_rename_cascade (db : DB) (id : Nat) (owner : String) (F : Folder)
    (newName : String)
    (hF : findActiveFolder db id owner = some F)
    (hname : newName ≠ F.name)
    (huniq : conflictExists db owner F.parentId newName (some id) = false)
    (hext : strStartsWith (F.path ++ "/") (renameNewPath F.path newName) = false) :
    folderRename db id owner newName = .ok
      { db with folders := db.folders.map (fun g =>
          if g.fid == id then
            { g with name := newName, path := renameNewPath F.path newName }
          else if g.ownerId == F.ownerId && strStartsWith (F.path ++ "/") g.path then
            { g with path := renameNewPath F.path newName ++
                             strDropLen (strLen F.path) g.path }
          else g) } := by
  have hname2 : (newName == F.name) = false := by simp [hname]
  unfold folderRename checkUniqueName
  rw [hF]
  simp only [hname2, huniq, Bool.false_eq_true, if_false]
  rw [List.map_map]
  congr 1
  congr 1
  apply List.map_congr_left
  intro g _
  show (renameCascadeUpd F.ownerId F.path (renameNewPath F.path newName))
      ((renameSelfUpd id newName (renameNewPath F.path newName)) g) = _
  unfold renameSelfUpd renameCascadeUpd
  cases hfid : (g.fid == id) with
  | true => simp [hfid, hext]
  | false => simp only [hfid, Bool.false_eq_true, if_false]

/-- Witness for C5: concrete move of `/A` (with child `/A/C`) under `/B`. -/
theorem C5_move_cascade_witness :
    folderMove dbMoveWit 0 "u" (some 1) = .ok
      { dbMoveWit with folders := dbMoveWit.folders.map (fun g =>
          if g.fid == 0 then
            { g with parentId := some 1, path := "/B" ++ "/" ++ "A", depth := 0 + 1 }
          else if g.ownerId == "u" && strStartsWith ("/A" ++ "/") g.path then
            { g with path := ("/B" ++ "/" ++ "A") ++ strDropLen (strLen "/A") g.path,
                     depth := g.depth + (0 + 1 - 0) }
          else g) } := by
  exact C5_move_cascade dbMoveWit 0 1 "u"
    ⟨0, "A", none, "u", "/A", 0, false, none⟩
    ⟨1, "B", none, "u", "/B", 0, false, none⟩
    (by decide) (by decide) (by decide) (by decide) (by decide)
    (by decide) (by decide) (by decide)

/-- Witness for C6: concrete rename of `/A` (with child `/A/B`) to `C`. -/
theorem C6_rename_cascade_witness :
    folderRename dbAB 0 "u" "C" = .ok
      { dbAB with folders := dbAB.folders.map (fun g =>
          if g.fid == 0 then
            { g with name := "C", path := renameNewPath "/A" "C" }
          else if g.ownerId == "u" && strStartsWith ("/A" ++ "/") g.path then
            { g with path := renameNewPath "/A" "C" ++ strDropLen (strLen "/A") g.path }
          else g) } := by
  exact C6_rename_cascade dbAB 0 "u" ⟨0, "A", none, "u", "/A", 0, false, none⟩ "C"
    (by decide) (by decide) (by decide) (by decide)

/-- Witness for C10: the self-move of `/A` at depth 0. -/
theorem C10_self_move_completes_witness :
    (folderMove dbSelfMove 0 "u" (some 0) ≠
      .error (.validation "FOLDER_MOVE_INTO_SELF")) ∧
    folderMove dbSelfMove 0 "u" (some 0) = .ok
      { dbSelfMove with folders := dbSelfMove.folders.map (fun g =>
          if g.fid == 0 then
            { g with parentId := some 0, path := "/A" ++ "/" ++ "A" ++ "/" ++ "A",
                     depth := 0 + 2 }
          else if g.ownerId == "u" && strStartsWith ("/A" ++ "/") g.path then
            { g with path := ("/A" ++ "/" ++ "A") ++ strDropLen (strLen "/A") g.path,
                     depth := g.depth + 1 }
          else g) } :=
  ⟨C10_self_move_completes.1 dbSelfMove 0 "u",
   C10_self_move_completes.2 dbSelfMove 0 "u"
     ⟨0, "A", none, "u", "/A", 0, false, none⟩
     (by decide) (by decide) (by decide) (by decide) (by decide) (by decide)⟩

/-- Witness for C7: both cascades evaluated on the mixed state `dbC7`. -/
theorem C7_delete_cascades_witness :
    (folderSoftDelete dbC7 0 "u" 9 = .ok
      { dbC7 with
        folders := dbC7.folders.map (fun g =>
          if g.fid == 0 || (g.ownerId == "u" &&
              strStartsWith ("/B" ++ "/") g.path && !g.isDeleted) then
            { g with isDeleted := true, deletedAt := some 9 }
          else g),
        documents := dbC7.documents.map (fun d =>
          if d.ownerId == "u" &&
              optMemNat d.folderId (subtreeIds dbC7.folders 0 "u" "/B") &&
              !d.isDeleted then
            { d with isDeleted := true, deletedAt := some 9 }
          else d) }) ∧
    (∃ st cnt₁ cnt₂, folderPermanentDelete dbC7 0 "u" = .ok (st, cnt₁, cnt₂) ∧
      st.documents = dbC7.documents.map (fun d =>
        if d.ownerId == "u" &&
            optMemNat d.folderId (subtreeIds dbC7.folders 0 "u" "/B") then
          { d with folderId := none }
        else d) ∧
      st.documents.length = dbC7.documents.length ∧
      (∀ g ∈ st.folders,
        ¬ (g.fid = 0 ∨ (g.ownerId = "u" ∧
            strStartsWith ("/B" ++ "/") g.path = true)))) :=
  ⟨(C7_delete_cascades dbC7 0 "u" 9 ⟨0, "B", none, "u", "/B", 0, false, none⟩).1
      (by decide),
   (C7_delete_cascades dbC7 0 "u" 9 ⟨0, "B", none, "u", "/B", 0, false, none⟩).2
      (by decide)⟩

/-- C4 amended: when restoring a soft-deleted document whose
`deletedFolderInfo` snapshot is present (with `recreateFolder = true`),
the document is re-attached to the snapshot's folderId — with
`folderRecreated = false` — if and only if a folder with that exact id
exists for the owner, regardless of its deletion state (the lookup has
no isDeleted filter); otherwise the recreation path is taken. -/
theorem C4_reattach_iff_id_exists (db : DB) (did : Nat) (owner : String)
    (d : Document) (info : DeletedFolderInfo) (failAt : Option Nat)
    (hd : findDeletedDoc db did owner = some d)
    (hinfo : d.deletedFolderInfo = some info) :
    (∃ doc1 st, docRestore db did owner true failAt = .ok (doc1, false, st) ∧
        doc1.folderId = some info.folderId) ↔
    (∃ f ∈ db.folders, f.fid = info.folderId ∧ f.ownerId = owner) := by
  constructor
  · rintro ⟨doc1, st, heq, hfold⟩
    unfold docRestore at heq
    rw [hd] at heq
    dsimp only at heq
    rw [hinfo] at heq
    dsimp only at heq
    cases hfind : findAnyFolder db info.folderId owner with
    | some f =>
      have hp := List.find?_some hfind
      simp only [Bool.and_eq_true, beq_iff_eq] at hp
      exact ⟨f, List.mem_of_find?_eq_some hfind, hp.1, hp.2⟩
    | none =>
      rw [hfind] at heq
      cases hrc : recreateFolderFromInfo db owner info failAt with
      | mk res st1 =>
        rw [hrc] at heq
        cases res with
        | some f => simp at heq
        | none =>
          simp only [Except.ok.injEq, Prod.mk.injEq] at heq
          rw [← heq.1] at hfold
          simp at hfold
  · rintro ⟨f, hmem, hfid, howner⟩
    have hsome : (findAnyFolder db info.folderId owner).isSome := by
      refine List.find?_isSome.mpr ⟨f, hmem, ?_⟩
      simp [hfid, howner]
    obtain ⟨f0, hf0⟩ := Option.isSome_iff_exists.mp hsome
    have hp0 := List.find?_some hf0
    simp only [Bool.and_eq_true, beq_iff_eq] at hp0
    have hcomp : docRestore db did owner true failAt = .ok
        (⟨d.did, some f0.fid, d.ownerId, false, none, none⟩, false,
         { db with documents := db.documents.map (fun x =>
             if x.did == d.did then
               (⟨d.did, some f0.fid, d.ownerId, false, none, none⟩ : Document)
             else x) }) := by
      unfold docRestore
      rw [hd]
      dsimp only
      rw [hinfo]
      dsimp only
      rw [hf0]
    exact ⟨_, _, hcomp, by simp [hp0.1]⟩

/-- Witness for C4: the snapshot folder exists but is soft-deleted, and
the restore still re-attaches to it. -/
theorem C4_reattach_iff_id_exists_witness :
    ∃ doc1 st, docRestore dbSnapDeleted 0 "u" true none = .ok (doc1, false, st) ∧
      doc1.folderId = some 0 :=
  (C4_reattach_iff_id_exists dbSnapDeleted 0 "u"
    ⟨0, none, "u", true, some 5, some ⟨0, "A", "/A", none⟩⟩
    ⟨0, "A", "/A", none⟩ none (by decide) (by decide)).mpr (by decide)

/-- For alphanumeric patterns the unescaped case-insensitive regex match
coincides with case-insensitive equality. -/
theorem listIMatch_eq_lower (p : List Char) (hp : ∀ c ∈ p, c.isAlphanum = true) :
    ∀ s : List Char,
      (listIMatch p s = true ↔ p.map Char.toLower = s.map Char.toLower) := by
  induction p with
  | nil => intro s; cases s <;> simp [listIMatch]
  | cons a ps ih =>
    intro s
    have ha : a.isAlphanum = true := hp a (by simp)
    have hdot : a ≠ '.' := by
      intro hcon
      rw [hcon] at ha
      simp at ha
    cases s with
    | nil => simp [listIMatch]
    | cons b bs =>
      have ihbs := ih (fun c hc => hp c (by simp [hc])) bs
      simp only [listIMatch, charIMatch, List.map_cons, List.cons.injEq,
        Bool.and_eq_true, Bool.or_eq_true, decide_eq_true_eq]
      constructor
      · rintro ⟨hab, hrest⟩
        rcases hab with hcon | hlow
        · exact absurd hcon hdot
        · exact ⟨hlow, ihbs.mp hrest⟩
      · rintro ⟨hlow, hrest⟩
        exact ⟨Or.inr hlow, ihbs.mpr hrest⟩

/-- Path generation can fail only with NotFound or Validation errors,
never with a ConflictError. -/
theorem generatePath_no_conflict (db : DB) (owner : String) (parentId : Option Nat)
    (name : String) (c : String) :
    generatePath db owner parentId name ≠ .error (.conflict c) := by
  unfold generatePath
  cases parentId with
  | none => simp
  | some pid =>
    cases hfp : findActiveFolder db pid owner with
    | none => simp [hfp]
    | some parent =>
      by_cases hd : parent.depth + 1 > MAX_FOLDER_DEPTH
      · simp [hfp, hd]
      · simp [hfp, hd]

/-- C8 amended: for a requested name consisting only of alphanumeric
characters (no regex metacharacter), folder create fails with
ConflictError FOLDER_NAME_EXISTS if and only if a non-deleted folder
with the same ownerId and parentId has a case-insensitively equal name;
for arbitrary names the comparison is the case-insensitive regex built
from the unescaped requested name, so metacharacters are interpreted. -/
theorem C8_conflict_iff_case_insensitive_sibling (db : DB) (owner name : String)
    (parentId : Option Nat)
    (halpha : ∀ c ∈ name.data, c.isAlphanum = true) :
    folderCreate db owner name parentId = .error (.conflict "FOLDER_NAME_EXISTS") ↔
    ∃ g ∈ db.folders, g.ownerId = owner ∧ g.parentId = parentId ∧
      g.isDeleted = false ∧ lowerEq name g.name = true := by
  unfold folderCreate checkUniqueName
  cases hc : conflictExists db owner parentId name none with
  | true =>
    rw [if_pos rfl]
    constructor
    · intro _
      unfold conflictExists at hc
      obtain ⟨g, hmem, hpred⟩ := List.any_eq_true.mp hc
      simp only [Bool.and_eq_true, beq_iff_eq] at hpred
      refine ⟨g, hmem, hpred.1.1.1.1, hpred.1.1.1.2, by simpa using hpred.1.2, ?_⟩
      have := (listIMatch_eq_lower name.data halpha g.name.data).mp hpred.1.1.2
      simp [lowerEq, this]
    · intro _; rfl
  | false =>
    simp only [Bool.false_eq_true, if_false]
    constructor
    · intro heq
      exfalso
      cases hgp : generatePath db owner parentId name with
      | error e =>
        rw [hgp] at heq
        simp only [Except.error.injEq] at heq
        exact generatePath_no_conflict db owner parentId name "FOLDER_NAME_EXISTS"
          (by rw [hgp, heq])
      | ok pd => rw [hgp] at heq; simp at heq
    · rintro ⟨g, hmem, howner, hparent, hdel, hlow⟩
      exfalso
      unfold conflictExists at hc
      have : ∃ g ∈ db.folders, (g.ownerId == owner && g.parentId == parentId &&
          regexIMatch name g.name && !g.isDeleted &&
          (match (none : Option Nat) with
           | some e => g.fid != e
           | none => true)) = true := by
        refine ⟨g, hmem, ?_⟩
        have hmatch : regexIMatch name g.name = true := by
          unfold regexIMatch
          refine (listIMatch_eq_lower name.data halpha g.name.data).mpr ?_
          simpa [lowerEq] using hlow
        simp [howner, hparent, hdel, hmatch]
      rw [← List.any_eq_true] at this
      rw [hc] at this
      exact Bool.false_ne_true this

/-- Witness for C8: creating `docs` under a live sibling `Docs` conflicts. -/
theorem C8_conflict_iff_case_insensitive_sibling_witness :
    folderCreate dbCaseWit "u" "docs" none =
      .error (.conflict "FOLDER_NAME_EXISTS") :=
  (C8_conflict_iff_case_insensitive_sibling dbCaseWit "u" "docs" none
    (by decide)).mpr (by decide)

/-- Loop invariant of the recreation walk with no injected failure: the
walk only appends records; each created folder belongs to the owner, sits
at the cumulative path of its segment with the sequential depth, and was
created only because the owner had no folder at that exact path; every
cumulative path ends up occupied; and with a nonempty segment list the
walk returns a folder. -/
theorem recreateLoop_spec (owner : String) (parts : List String) :
    ∀ (i : Nat) (cur : String) (parentId : Option Nat) (last : Option Folder) (db : DB),
    ∃ created : List Folder,
      (recreateLoop owner none parts i cur parentId last db).2.folders =
        db.folders ++ created ∧
      (∀ f ∈ created, f.ownerId = owner ∧
        (∃ j, (cumPaths cur parts).get? j = some f.path ∧
          f.depth = ((i + j : Nat) : Int)) ∧
        ¬ ∃ g ∈ db.folders, g.ownerId = owner ∧ g.path = f.path) ∧
      (∀ q ∈ cumPaths cur parts,
        ∃ f ∈ (recreateLoop owner none parts i cur parentId last db).2.folders,
          f.ownerId = owner ∧ f.path = q) ∧
      (parts = [] → (recreateLoop owner none parts i cur parentId last db).1 = last) ∧
      (parts ≠ [] →
        ((recreateLoop owner none parts i cur parentId last db).1).isSome = true) := by
  induction parts with
  | nil =>
    intro i cur parentId last db
    exact ⟨[], by simp [recreateLoop], by simp, by simp [cumPaths],
      fun _ => rfl, fun h => absurd rfl h⟩
  | cons p rest ih =>
    intro i cur parentId last db
    cases hfind : db.folders.find?
        (fun g => g.ownerId == owner && g.path == cur ++ "/" ++ p) with
    | some f =>
      have hstep : recreateLoop owner none (p :: rest) i cur parentId last db =
          recreateLoop owner none rest (i + 1) (cur ++ "/" ++ p) (some f.fid)
            (some f) db := by
        conv_lhs => rw [recreateLoop]
        dsimp only
        rw [hfind]
      obtain ⟨created, h1, h2, h3, h4, h5⟩ :=
        ih (i + 1) (cur ++ "/" ++ p) (some f.fid) (some f) db
      refine ⟨created, by rw [hstep]; exact h1, ?_, ?_, ?_, ?_⟩
      · intro f' hf'
        obtain ⟨ho, ⟨j, hj, hdepth⟩, hnew⟩ := h2 f' hf'
        refine ⟨ho, ⟨j + 1, by simpa [cumPaths] using hj, ?_⟩, hnew⟩
        rw [hdepth]
        congr 1
        omega
      · intro q hq
        rw [hstep]
        rcases List.mem_cons.mp (by simpa [cumPaths] using hq :
            q ∈ (cur ++ "/" ++ p) :: cumPaths (cur ++ "/" ++ p) rest) with hq1 | hq2
        · have hp := List.find?_some hfind
          simp only [Bool.and_eq_true, beq_iff_eq] at hp
          refine ⟨f, ?_, hp.1, by rw [hq1]; exact hp.2⟩
          rw [h1]
          exact List.mem_append_left _ (List.mem_of_find?_eq_some hfind)
        · exact h3 q hq2
      · intro hcon; cases hcon
      · intro _
        rw [hstep]
        cases rest with
        | nil => rw [h4 rfl]; rfl
        | cons a as => exact h5 (by simp)
    | none =>
      have hstep : recreateLoop owner none (p :: rest) i cur parentId last db =
          recreateLoop owner none rest (i + 1) (cur ++ "/" ++ p)
            (some db.nextId)
            (some ⟨db.nextId, p, parentId, owner, cur ++ "/" ++ p, (i : Int), false, none⟩)
            { db with
              folders := db.folders ++
                [⟨db.nextId, p, parentId, owner, cur ++ "/" ++ p, (i : Int), false, none⟩],
              nextId := db.nextId + 1 } := by
        conv_lhs => rw [recreateLoop]
        dsimp only
        rw [hfind]
        rfl
      obtain ⟨created, h1, h2, h3, h4, h5⟩ :=
        ih (i + 1) (cur ++ "/" ++ p) (some db.nextId)
          (some ⟨db.nextId, p, parentId, owner, cur ++ "/" ++ p, (i : Int), false, none⟩)
          { db with
            folders := db.folders ++
              [⟨db.nextId, p, parentId, owner, cur ++ "/" ++ p, (i : Int), false, none⟩],
            nextId := db.nextId + 1 }
      refine ⟨⟨db.nextId, p, parentId, owner, cur ++ "/" ++ p, (i : Int), false, none⟩ ::
          created, ?_, ?_, ?_, ?_, ?_⟩
      · rw [hstep, h1]
        simp
      · intro f' hf'
        rcases List.mem_cons.mp hf' with hf1 | hf2
        · subst hf1
          refine ⟨rfl, ⟨0, by simp [cumPaths], by simp⟩, ?_⟩
          rintro ⟨g, hg, hgo, hgp⟩
          have hnone := List.find?_eq_none.mp hfind g hg
          simp [hgo, hgp] at hnone
        · obtain ⟨ho, ⟨j, hj, hdepth⟩, hnew⟩ := h2 f' hf2
          refine ⟨ho, ⟨j + 1, by simpa [cumPaths] using hj, ?_⟩, ?_⟩
          · rw [hdepth]
            congr 1
            omega
          · rintro ⟨g, hg, hgo, hgp⟩
            exact hnew ⟨g, by simp [List.mem_append_left, hg], hgo, hgp⟩
      · intro q hq
        rw [hstep]
        rcases List.mem_cons.mp (by simpa [cumPaths] using hq :
            q ∈ (cur ++ "/" ++ p) :: cumPaths (cur ++ "/" ++ p) rest) with hq1 | hq2
        · refine ⟨⟨db.nextId, p, parentId, owner, cur ++ "/" ++ p, (i : Int), false, none⟩,
            ?_, rfl, by rw [hq1]⟩
          rw [h1]
          apply List.mem_append_left
          simp
        · exact h3 q hq2
      · intro hcon; cases hcon
      · intro _
        rw [hstep]
        cases rest with
        | nil => rw [h4 rfl]; rfl
        | cons a as => exact h5 (by simp)

/-- C9: document restore never raises a ConflictError (its only error is
NotFound for a missing document); an injected store failure during
recreation is absorbed — the restore still succeeds with
`folderId = null` and `folderRecreated = false`; and with no failure the
recreation walk only appends folders, reaches every cumulative path of
the snapshot (reusing any owner folder already at that exact path),
creates only segments that had no owner folder at their cumulative path,
and gives each created folder the sequential depth of its segment. -/
theorem C9_recreation_best_effort :
    (∀ (db : DB) (did : Nat) (owner : String) (rec : Bool) (failAt : Option Nat)
        (e : ApiError),
       docRestore db did owner rec failAt = .error e → e = .notFound "Document") ∧
    (∀ (db : DB) (did : Nat) (owner : String) (d : Document)
        (info : DeletedFolderInfo) (failAt : Option Nat),
       findDeletedDoc db did owner = some d →
       d.deletedFolderInfo = some info →
       findAnyFolder db info.folderId owner = none →
       (recreateFolderFromInfo db owner info failAt).1 = none →
       ∃ st, docRestore db did owner true failAt = .ok
         ({ d with isDeleted := false, deletedAt := none,
                   deletedFolderInfo := none, folderId := none }, false, st)) ∧
    (∀ (db : DB) (owner : String) (info : DeletedFolderInfo),
       pathSegments info.path ≠ [] →
       ∃ created : List Folder,
         (recreateFolderFromInfo db owner info none).2.folders =
           db.folders ++ created ∧
         ((recreateFolderFromInfo db owner info none).1).isSome = true ∧
         (∀ f ∈ created, f.ownerId = owner ∧
           (∃ j, (cumPaths "" (pathSegments info.path)).get? j = some f.path ∧
             f.depth = (j : Int)) ∧
           ¬ ∃ g ∈ db.folders, g.ownerId = owner ∧ g.path = f.path) ∧
         (∀ q ∈ cumPaths "" (pathSegments info.path),
           ∃ f ∈ (recreateFolderFromInfo db owner info none).2.folders,
             f.ownerId = owner ∧ f.path = q)) := by
  refine ⟨?_, ?_, ?_⟩
  · intro db did owner rec failAt e heq
    unfold docRestore at heq
    cases hd : findDeletedDoc db did owner with
    | none =>
      rw [hd] at heq
      simpa using heq.symm
    | some d =>
      rw [hd] at heq
      simp at heq
  · intro db did owner d info failAt hd hinfo hnone hrc
    unfold docRestore
    rw [hd]
    dsimp only
    rw [hinfo]
    dsimp only
    rw [hnone]
    cases hrc2 : recreateFolderFromInfo db owner info failAt with
    | mk res st1 =>
      rw [hrc2] at hrc
      dsimp only at hrc
      subst hrc
      exact ⟨_, rfl⟩
  · intro db owner info hne
    unfold recreateFolderFromInfo
    cases hseg : pathSegments info.path with
    | nil => exact absurd hseg hne
    | cons p rest =>
      obtain ⟨created, h1, h2, h3, h4, h5⟩ :=
        recreateLoop_spec owner (p :: rest) 0 "" none none db
      refine ⟨created, h1, h5 (by simp), ?_, ?_⟩
      · intro f hf
        obtain ⟨ho, ⟨j, hj, hdepth⟩, hnew⟩ := h2 f hf
        exact ⟨ho, ⟨j, hj, by rw [hdepth]; norm_num⟩, hnew⟩
      · intro q hq
        exact h3 q hq

/-- Witness for C9: a restore of a missing document, an injected
recreation failure falling back to root, and the walk of `/A/B` reusing
the existing `/A`. -/
theorem C9_recreation_best_effort_witness :
    ((.notFound "Document" : ApiError) = .notFound "Document") ∧
    (∃ st, docRestore dbC9fail 0 "u" true (some 0) = .ok
      (⟨0, none, "u", false, none, none⟩, false, st)) ∧
    (∃ created : List Folder,
      (recreateFolderFromInfo dbC9walk "u" ⟨9, "B", "/A/B", some 9⟩ none).2.folders =
        dbC9walk.folders ++ created ∧
      ((recreateFolderFromInfo dbC9walk "u" ⟨9, "B", "/A/B", some 9⟩ none).1).isSome = true ∧
      (∀ f ∈ created, f.ownerId = "u" ∧
        (∃ j, (cumPaths "" (pathSegments "/A/B")).get? j = some f.path ∧
          f.depth = (j : Int)) ∧
        ¬ ∃ g ∈ dbC9walk.folders, g.ownerId = "u" ∧ g.path = f.path) ∧
      (∀ q ∈ cumPaths "" (pathSegments "/A/B"),
        ∃ f ∈ (recreateFolderFromInfo dbC9walk "u" ⟨9, "B", "/A/B", some 9⟩ none).2.folders,
          f.ownerId = "u" ∧ f.path = q)) :=
  ⟨C9_recreation_best_effort.1 ⟨[], [], 0⟩ 0 "u" true none (.notFound "Document")
      (by decide),
   C9_recreation_best_effort.2.1 dbC9fail 0 "u"
      ⟨0, none, "u", true, some 1, some ⟨7, "A", "/A", none⟩⟩
      ⟨7, "A", "/A", none⟩ (some 0) (by decide) (by decide) (by decide) (by decide),
   C9_recreation_best_effort.2.2 dbC9walk "u" ⟨9, "B", "/A/B", some 9⟩ (by decide)⟩

end DMS
